import Mathlib

/-!
Verification development for the consolidated invoice/quotation extraction
application (source: Angela_app.py).  The Python source is shallowly embedded:
regular-expression patterns become an executable backtracking matcher over an
explicit abstract syntax (every quantified subterm in the source patterns is a
single character class, so the matcher is structurally recursive and fully
evaluable by the kernel), stateful dictionary code becomes explicit state
passing over association lists, host-library behaviour (strptime/strftime,
str methods, float parsing) is modelled by explicit total functions, and the
host locale (consulted by strptime via its month-name directive) is an explicit
parameter.
-/

set_option maxRecDepth 10000

namespace AngelaApp

/-- Whitespace characters: models the character class matched by the regex
whitespace escape and the characters removed by the string strip method. -/
def isSpaceChar (c : Char) : Bool :=
  c == ' ' || c == '\t' || c == '\n' || c == '\r' || c == '\x0b' || c == '\x0c'

/-- Lowercasing for ASCII letters plus the accented letters appearing in the
source's pattern and month-name vocabulary. -/
def myLower (c : Char) : Char :=
  if c == 'Á' then 'á' else if c == 'É' then 'é' else if c == 'Í' then 'í'
  else if c == 'Ó' then 'ó' else if c == 'Ú' then 'ú' else if c == 'Ü' then 'ü'
  else if c == 'Ñ' then 'ñ' else if c == 'À' then 'à' else if c == 'È' then 'è'
  else if c == 'Â' then 'â' else if c == 'Ê' then 'ê' else if c == 'Î' then 'î'
  else if c == 'Ô' then 'ô' else if c == 'Û' then 'û' else if c == 'Ç' then 'ç'
  else if decide ('A' ≤ c) && decide (c ≤ 'Z') then Char.ofNat (c.toNat + 32) else c

/-- Uppercasing for ASCII letters plus the accented letters appearing in the
source's vocabulary; models the string upper method used to build merge keys. -/
def myUpper (c : Char) : Char :=
  if c == 'á' then 'Á' else if c == 'é' then 'É' else if c == 'í' then 'Í'
  else if c == 'ó' then 'Ó' else if c == 'ú' then 'Ú' else if c == 'ü' then 'Ü'
  else if c == 'ñ' then 'Ñ' else if c == 'à' then 'À' else if c == 'è' then 'È'
  else if c == 'â' then 'Â' else if c == 'ê' then 'Ê' else if c == 'î' then 'Î'
  else if c == 'ô' then 'Ô' else if c == 'û' then 'Û' else if c == 'ç' then 'Ç'
  else if decide ('a' ≤ c) && decide (c ≤ 'z') then Char.ofNat (c.toNat - 32) else c

/-- Word characters for the regex word escape and word-boundary assertion:
ASCII alphanumerics, underscore, and the accented letters of the vocabulary. -/
def isWordChar (c : Char) : Bool :=
  c.isAlphanum || c == '_' ||
    "áéíóúüñàèâêîôûçÁÉÍÓÚÜÑÀÈÂÊÎÔÛÇ".data.contains c

def strLower (s : String) : String := String.mk (s.data.map myLower)

def strUpper (s : String) : String := String.mk (s.data.map myUpper)

/-- Strips leading and trailing whitespace from a character list. -/
def stripData (l : List Char) : List Char :=
  ((l.dropWhile isSpaceChar).reverse.dropWhile isSpaceChar).reverse

/-- Models the string strip method. -/
def pyStrip (s : String) : String := String.mk (stripData s.data)

/-- Models replacing every occurrence of a single character by a character. -/
def replaceChar (a b : Char) (s : String) : String :=
  String.mk (s.data.map (fun c => if c = a then b else c))

/-- Models replacing every occurrence of a single character by the empty
string, i.e. deleting it. -/
def removeChar (a : Char) (s : String) : String :=
  String.mk (s.data.filter (fun c => c ≠ a))

/-- Models the split-on-underscore-take-first idiom x.split(sep)[0]. -/
def underscoreHead (s : String) : String :=
  String.mk (s.data.takeWhile (fun c => c ≠ '_'))

/-!
## Regular expression engine

A backtracking matcher with Python search semantics: the leftmost starting
position wins, alternatives are tried left to right, greedy quantifiers prefer
longer and lazy quantifiers shorter iteration counts.  Every quantified body in
the source's patterns is a single character class, so repetition is its own
structurally recursive function and no fuel is needed for matching.
-/

/-- One item of a character class. -/
inductive ClassItem where
  | one (c : Char)
  | range (lo hi : Char)
  | digit
  | space
  | word
deriving DecidableEq

def itemMatch (it : ClassItem) (c : Char) : Bool :=
  match it with
  | .one a => c == a
  | .range lo hi => decide (lo ≤ c) && decide (c ≤ hi)
  | .digit => c.isDigit
  | .space => isSpaceChar c
  | .word => isWordChar c

/-- A single-character matcher: a literal, a (possibly negated) class, or the
any-character dot (which does not match a newline). -/
inductive RChar where
  | lit (c : Char)
  | cls (neg : Bool) (items : List ClassItem)
  | dotAny
deriving DecidableEq

/-- Character matching, with the case-insensitive flag modelled after the
IGNORECASE semantics: a literal compares casefolded, a class also accepts a
character whose lower- or uppercase form is in the class. -/
def rcharMatch (ci : Bool) (rc : RChar) (c : Char) : Bool :=
  match rc with
  | .lit a => if ci then myLower a == myLower c else a == c
  | .cls neg items =>
      let base := fun (x : Char) => items.any (fun it => itemMatch it x)
      let m := if ci then base c || base (myLower c) || base (myUpper c) else base c
      if neg then !m else m
  | .dotAny => !(c == '\n')

/-- Regex abstract syntax.  Repetition (which subsumes star, plus and counted
bounds) is restricted to single-character bodies, faithfully covering every
pattern in the source. -/
inductive Regex where
  | eps
  | ch (rc : RChar)
  | seq (a b : Regex)
  | alt (a b : Regex)
  | opt (greedy : Bool) (a : Regex)
  | rep (greedy : Bool) (lo : Nat) (hi : Option Nat) (rc : RChar)
  | grp (idx : Nat) (a : Regex)
  | look (a : Regex)
  | bol
  | eol
  | wordB
deriving DecidableEq

/-- Capture list: group index with start and end positions, most recent
first. -/
abbrev Caps := List (Nat × Nat × Nat)

/-- Repetition matcher in continuation-passing style.  The continuation
receives position, previous character and remaining input. -/
def repM (ci greedy : Bool) (rc : RChar) (lo : Nat) (hi : Option Nat)
    (pos : Nat) (prev : Option Char) (rest : List Char)
    (k : Nat → Option Char → List Char → Option (Nat × Caps)) : Option (Nat × Caps) :=
  match rest with
  | [] => if lo = 0 then k pos prev [] else none
  | c :: rs =>
    let canTake := rcharMatch ci rc c && !(hi == some 0)
    if lo > 0 then
      if canTake then
        repM ci greedy rc (lo - 1) (hi.map (fun n => n - 1)) (pos + 1) (some c) rs k
      else none
    else
      if canTake then
        if greedy then
          (repM ci greedy rc 0 (hi.map (fun n => n - 1)) (pos + 1) (some c) rs k) <|>
            k pos prev (c :: rs)
        else
          (k pos prev (c :: rs)) <|>
            repM ci greedy rc 0 (hi.map (fun n => n - 1)) (pos + 1) (some c) rs k
      else k pos prev (c :: rs)

/-- The backtracking matcher.  Matches `r` at the current position, calling the
continuation with the new position, previous character, remaining input and
captures; alternatives are tried in priority order. -/
def mtch (ci : Bool) (r : Regex) (pos : Nat) (prev : Option Char) (rest : List Char)
    (caps : Caps)
    (k : Nat → Option Char → List Char → Caps → Option (Nat × Caps)) : Option (Nat × Caps) :=
  match r with
  | .eps => k pos prev rest caps
  | .ch rc =>
    match rest with
    | [] => none
    | c :: rs => if rcharMatch ci rc c then k (pos + 1) (some c) rs caps else none
  | .seq a b => mtch ci a pos prev rest caps (fun p pv rs cs => mtch ci b p pv rs cs k)
  | .alt a b => (mtch ci a pos prev rest caps k) <|> (mtch ci b pos prev rest caps k)
  | .opt greedy a =>
    if greedy then (mtch ci a pos prev rest caps k) <|> k pos prev rest caps
    else (k pos prev rest caps) <|> (mtch ci a pos prev rest caps k)
  | .rep greedy lo hi rc => repM ci greedy rc lo hi pos prev rest (fun p pv rs => k p pv rs caps)
  | .grp i a => mtch ci a pos prev rest caps (fun p pv rs cs => k p pv rs ((i, pos, p) :: cs))
  | .look a =>
    match mtch ci a pos prev rest caps (fun p _ _ cs => some (p, cs)) with
    | some (_, cs) => k pos prev rest cs
    | none => none
  | .bol => if pos = 0 then k pos prev rest caps else none
  | .eol =>
    match rest with
    | [] => k pos prev rest caps
    | [c] => if c = '\n' then k pos prev rest caps else none
    | _ => none
  | .wordB =>
    let before := match prev with | none => false | some c => isWordChar c
    let after := match rest with | [] => false | c :: _ => isWordChar c
    if before ≠ after then k pos prev rest caps else none

/-- Search: try to match at each position from left to right; the first
position admitting a match wins.  Returns start, end and captures. -/
def searchFrom (ci : Bool) (r : Regex) (pos : Nat) (prev : Option Char) (rest : List Char) :
    Option (Nat × Nat × Caps) :=
  match mtch ci r pos prev rest [] (fun p _ _ cs => some (p, cs)) with
  | some (e, cs) => some (pos, e, cs)
  | none =>
    match rest with
    | [] => none
    | c :: rs => searchFrom ci r (pos + 1) (some c) rs

/-- Models re.search on a whole string. -/
def reSearch (ci : Bool) (r : Regex) (s : String) : Option (Nat × Nat × Caps) :=
  searchFrom ci r 0 none s.data

def capLookup (caps : Caps) (i : Nat) : Option (Nat × Nat) :=
  match caps with
  | [] => none
  | (j, s, e) :: rest => if j = i then some (s, e) else capLookup rest i

/-- Substring of `s` from position `a` (inclusive) to `b` (exclusive). -/
def sliceStr (s : String) (a b : Nat) : String :=
  String.mk ((s.data.take b).drop a)

/-- Models match.group(i): the text captured by group `i` of a match on `s`. -/
def groupStr (s : String) (caps : Caps) (i : Nat) : String :=
  match capLookup caps i with
  | some (a, b) => sliceStr s a b
  | none => ""

/-- Number of capturing groups in a pattern; models len(match.groups()). -/
def numGroups : Regex → Nat
  | .eps => 0
  | .ch _ => 0
  | .seq a b => numGroups a + numGroups b
  | .alt a b => numGroups a + numGroups b
  | .opt _ a => numGroups a
  | .rep _ _ _ _ => 0
  | .grp _ a => numGroups a + 1
  | .look a => numGroups a
  | .bol => 0
  | .eol => 0
  | .wordB => 0

def lastCharOf (l : List Char) (dflt : Option Char) : Option Char :=
  match l.getLast? with
  | some c => some c
  | none => dflt

/-- Replace-all worker for re.sub: repeatedly search, emit the prefix and the
replacement, and continue after the match (advancing one character on an empty
match, as the host library does).  Fuelled by the input length, which each step
strictly consumes. -/
def subAllAux (ci : Bool) (r : Regex) (rep : List Char) :
    Nat → Nat → Option Char → List Char → List Char
  | 0, _, _, rest => rest
  | fuel + 1, pos, prev, rest =>
    match searchFrom ci r pos prev rest with
    | none => rest
    | some (s, e, _) =>
      let pre := rest.take (s - pos)
      let rest' := rest.drop (s - pos)
      if e - s = 0 then
        match rest' with
        | [] => pre ++ rep
        | c :: tl => pre ++ rep ++ c :: subAllAux ci r rep fuel (s + 1) (some c) tl
      else
        pre ++ rep ++
          subAllAux ci r rep fuel e (lastCharOf (rest'.take (e - s)) prev) (rest'.drop (e - s))

/-- Models re.sub(pattern, replacement, string). -/
def pySub (ci : Bool) (r : Regex) (rep : String) (s : String) : String :=
  String.mk (subAllAux ci r rep.data (s.data.length + 1) 0 none s.data)

/-!
## Pattern abstract syntax helpers and the source's patterns

Each pattern definition carries the verbatim pattern text from the source as a
comment, immediately before the abstract syntax that translates it.
-/

/-- Literal string as a sequence of literal characters. -/
def rstr (s : String) : Regex :=
  (s.data.map (fun c => Regex.ch (.lit c))).foldr Regex.seq Regex.eps

def rseq (l : List Regex) : Regex := l.foldr Regex.seq Regex.eps

def ralt : List Regex → Regex
  | [] => Regex.eps
  | [r] => r
  | r :: rs => Regex.alt r (ralt rs)

def optCh (c : Char) : Regex := .opt true (.ch (.lit c))

def rcWs : RChar := .cls false [.space]

def rcDigit : RChar := .cls false [.digit]

def rcWord : RChar := .cls false [.word]

def rcNl : RChar := .cls false [.one '\n', .one '\r']

def rcNotNl : RChar := .cls true [.one '\n', .one '\r']

def rcUpperNum : RChar := .cls false [.range 'A' 'Z', .range '0' '9']

def rcUpperAl : RChar := .cls false [.range 'A' 'Z']

def rcDateSep : RChar := .cls false [.space, .one '-', .one '/']

def rcSlashDash : RChar := .cls false [.one '/', .one '-']

def rcAmount : RChar := .cls false [.digit, .one '.', .one ',']

def rcWsColon : RChar := .cls false [.space, .one ':']

def wsStar : Regex := .rep true 0 none rcWs

def wsPlus : Regex := .rep true 1 none rcWs

/-- Subpattern R\.?U\.?T\. -/
def reRutWord : Regex :=
  rseq [rstr "R", optCh '.', rstr "U", optCh '.', rstr "T", rstr "."]

/-- Subpattern SEÑOR\s*\(?ES\)?\s*:\s* (the first honorific alternative). -/
def reHonorLong : Regex :=
  rseq [rstr "SEÑOR", wsStar, optCh '(', rstr "ES", optCh ')', wsStar, rstr ":", wsStar]

/-- Subpattern SR\.\(?A\)? (the second honorific head). -/
def reSrA : Regex :=
  rseq [rstr "SR.", optCh '(', rstr "A", optCh ')']

/-- CLIENT rule 1:
(?:SEÑOR\s*\(?ES\)?\s*:\s*)([^\n\r]+?)(?=\s*(?:R\.?U\.?T\.|GIRO|DIRECCI[ÓO]N|FECHA|COMUNA|[\n\r]|$)) -/
def reClient1 : Regex :=
  rseq [reHonorLong,
        .grp 1 (.rep false 1 none rcNotNl),
        .look (rseq [wsStar,
          ralt [reRutWord, rstr "GIRO",
                rseq [rstr "DIRECCI", .ch (.cls false [.one 'Ó', .one 'O']), rstr "N"],
                rstr "FECHA", rstr "COMUNA", .ch rcNl, .eol]])]

/-- CLIENT rule 2: (?:SR\.\(?A\)?[\s:]*)([^\n\r]+?)(?:\s+RUT|[\n\r]|$) -/
def reClient2 : Regex :=
  rseq [reSrA, .rep true 0 none rcWsColon,
        .grp 1 (.rep false 1 none rcNotNl),
        ralt [rseq [wsPlus, rstr "RUT"], .ch rcNl, .eol]]

/-- CLIENT rule 3: (?:SR\.\(?A\)?|Hola|Estimado\s*:\s*)?([^\n\r]+?)(?:\s+RUT|[\n\r]|$) -/
def reClient3 : Regex :=
  rseq [.opt true (ralt [reSrA, rstr "Hola", rseq [rstr "Estimado", wsStar, rstr ":", wsStar]]),
        .grp 1 (.rep false 1 none rcNotNl),
        ralt [rseq [wsPlus, rstr "RUT"], .ch rcNl, .eol]]

/-- NUMBER rule 1: N[°º]\s*:\s*(\d+) -/
def reNumber1 : Regex :=
  rseq [rstr "N", .ch (.cls false [.one '°', .one 'º']), wsStar, rstr ":", wsStar,
        .grp 1 (.rep true 1 none rcDigit)]

/-- NUMBER rule 2: N[°º]\s*(\d+) -/
def reNumber2 : Regex :=
  rseq [rstr "N", .ch (.cls false [.one '°', .one 'º']), wsStar,
        .grp 1 (.rep true 1 none rcDigit)]

/-- NUMBER rule 3: N°\s*:\s*(\d+) -/
def reNumber3 : Regex :=
  rseq [rstr "N°", wsStar, rstr ":", wsStar, .grp 1 (.rep true 1 none rcDigit)]

/-- DATE long rule:
Fecha\s+(?:de\s+)?Emisi[óo]n\s*:\s*(\d{1,2})\s+de\s+(\w+)\s+(?:del|de)\s+(\d{4}) -/
def reDateLong : Regex :=
  rseq [rstr "Fecha", wsPlus, .opt true (rseq [rstr "de", wsPlus]),
        rstr "Emisi", .ch (.cls false [.one 'ó', .one 'o']), rstr "n", wsStar, rstr ":", wsStar,
        .grp 1 (.rep true 1 (some 2) rcDigit), wsPlus, rstr "de", wsPlus,
        .grp 2 (.rep true 1 none rcWord), wsPlus, ralt [rstr "del", rstr "de"], wsPlus,
        .grp 3 (.rep true 4 (some 4) rcDigit)]

/-- DATE short rule: Fecha\s*:\s*(\d{1,2})[\s\-\/](\d{1,2})[\s\-\/](\d{2,4}) -/
def reDateShort : Regex :=
  rseq [rstr "Fecha", wsStar, rstr ":", wsStar,
        .grp 1 (.rep true 1 (some 2) rcDigit), .ch rcDateSep,
        .grp 2 (.rep true 1 (some 2) rcDigit), .ch rcDateSep,
        .grp 3 (.rep true 2 (some 4) rcDigit)]

/-- TOTAL rule 1: TOTAL\s+\$\s*([\d\.,]+) -/
def reTotal1 : Regex :=
  rseq [rstr "TOTAL", wsPlus, rstr "$", wsStar, .grp 1 (.rep true 1 none rcAmount)]

/-- TOTAL rule 2: Total\s+Cuenta\s+Única\s+Telefónica\s+\$\s*([\d\.,]+) -/
def reTotal2 : Regex :=
  rseq [rstr "Total", wsPlus, rstr "Cuenta", wsPlus, rstr "Única", wsPlus, rstr "Telefónica",
        wsPlus, rstr "$", wsStar, .grp 1 (.rep true 1 none rcAmount)]

/-- DESCRIPTION rule 1: (BOLETA\s+ELECTRONICA) -/
def reDesc1 : Regex :=
  .grp 1 (rseq [rstr "BOLETA", wsPlus, rstr "ELECTRONICA"])

/-- DESCRIPTION rule 2: (GUIA\s+DE\s+DESPACHO\s+ELECTRONICA) -/
def reDesc2 : Regex :=
  .grp 1 (rseq [rstr "GUIA", wsPlus, rstr "DE", wsPlus, rstr "DESPACHO", wsPlus,
                rstr "ELECTRONICA"])

/-- DESCRIPTION rule 3: ([A-Z0-9]{2,}[-][A-Z0-9]{2,}) -/
def reDesc3 : Regex :=
  .grp 1 (rseq [.rep true 2 none rcUpperNum, .ch (.cls false [.one '-']),
                .rep true 2 none rcUpperNum])

/-- DESCRIPTION rule 4: \b([A-Z]{3,}\d{2,})\b -/
def reDesc4 : Regex :=
  rseq [.wordB, .grp 1 (rseq [.rep true 3 none rcUpperAl, .rep true 2 none rcDigit]), .wordB]

/-- DESCRIPTION rule 5: (SII[^\n\r]+SANTIAGO) -/
def reDesc5 : Regex :=
  .grp 1 (rseq [rstr "SII", .rep true 1 none rcNotNl, rstr "SANTIAGO"])

/-- Client cleanup step 1 pattern: ^(SEÑOR\s*\(?ES\)?\s*:\s*|SR\.\(?A\)?[\s:]*) -/
def reHonorClean : Regex :=
  rseq [.bol, .grp 1 (ralt [reHonorLong, rseq [reSrA, .rep true 0 none rcWsColon]])]

/-- Client cleanup step 2 pattern: \s*R\.?U\.?T\..*$ -/
def reRutClean : Regex :=
  rseq [wsStar, reRutWord, .rep true 0 none .dotAny, .eol]

/-- Quotation-number cleanup pattern: ^CB -/
def reCb : Regex := rseq [.bol, rstr "CB"]

/-- Whitespace-run pattern: \s+ (used to normalize document text). -/
def reWsRun : Regex := wsPlus

/-- DOCX quotation pattern:
COTIZACI[ÓO]N\s*#\s*([A-Z0-9]+)\/?[A-Z]*,\s*(\d{1,2}[\/\-]\d{1,2}[\/\-]\d{2,4}) -/
def reQuote : Regex :=
  rseq [rstr "COTIZACI", .ch (.cls false [.one 'Ó', .one 'O']), rstr "N", wsStar, rstr "#",
        wsStar, .grp 1 (.rep true 1 none rcUpperNum), optCh '/', .rep true 0 none rcUpperAl,
        rstr ",", wsStar,
        .grp 2 (rseq [.rep true 1 (some 2) rcDigit, .ch rcSlashDash,
                      .rep true 1 (some 2) rcDigit, .ch rcSlashDash,
                      .rep true 2 (some 4) rcDigit])]

/-!
## Date model

datetime.strptime is modelled for the directives the source uses: the day,
month-number and year directives validate digit shape and range, the month-name
directive resolves the (lowercased) name against the month table of the host
locale, and the resulting date is validated against the Gregorian calendar.
The host locale, configured globally by the source's setlocale attempt, is an
explicit parameter.
-/

structure Date where
  year : Nat
  month : Nat
  day : Nat
deriving DecidableEq

def isLeap (y : Nat) : Bool := (y % 4 == 0 && !(y % 100 == 0)) || y % 400 == 0

def daysInMonth (y m : Nat) : Nat :=
  if m = 2 then (if isLeap y then 29 else 28)
  else if m = 4 ∨ m = 6 ∨ m = 9 ∨ m = 11 then 30
  else 31

def allDigits (l : List Char) : Bool := l.all Char.isDigit

def digitsVal (l : List Char) : Nat :=
  l.foldl (fun acc c => acc * 10 + (c.toNat - 48)) 0

/-- Day directive: one or two digits with value 1 to 31. -/
def parsePctDay (s : String) : Option Nat :=
  if allDigits s.data && decide (1 ≤ s.data.length) && decide (s.data.length ≤ 2) &&
      decide (1 ≤ digitsVal s.data) && decide (digitsVal s.data ≤ 31) then
    some (digitsVal s.data)
  else none

/-- Month-number directive: one or two digits with value 1 to 12. -/
def parsePctMonth (s : String) : Option Nat :=
  if allDigits s.data && decide (1 ≤ s.data.length) && decide (s.data.length ≤ 2) &&
      decide (1 ≤ digitsVal s.data) && decide (digitsVal s.data ≤ 12) then
    some (digitsVal s.data)
  else none

/-- Four-digit-year directive: one to four digits. -/
def parsePctYear (s : String) : Option Nat :=
  if allDigits s.data && decide (1 ≤ s.data.length) && decide (s.data.length ≤ 4) then
    some (digitsVal s.data)
  else none

/-- Two-digit-year directive: exactly two digits; 0-68 map into the 2000s and
69-99 into the 1900s. -/
def parsePctYear2 (s : String) : Option Nat :=
  if allDigits s.data && decide (s.data.length = 2) then
    some (if digitsVal s.data ≤ 68 then 2000 + digitsVal s.data else 1900 + digitsVal s.data)
  else none

/-- Calendar validation performed by the datetime constructor. -/
def mkValidDate (y m d : Nat) : Option Date :=
  if decide (1 ≤ y) && decide (y ≤ 9999) && decide (1 ≤ m) && decide (m ≤ 12) &&
      decide (1 ≤ d) && decide (d ≤ daysInMonth y m) then
    some ⟨y, m, d⟩
  else none

/-- A host locale: its full month names (lowercased) with month numbers, as
consulted by the month-name directive of strptime. -/
structure Locale where
  months : List (String × Nat)

def esLocale : Locale :=
  ⟨[("enero", 1), ("febrero", 2), ("marzo", 3), ("abril", 4), ("mayo", 5), ("junio", 6),
    ("julio", 7), ("agosto", 8), ("septiembre", 9), ("octubre", 10), ("noviembre", 11),
    ("diciembre", 12)]⟩

/-- The C/POSIX (English) month table, the default when no locale is set. -/
def cLocale : Locale :=
  ⟨[("january", 1), ("february", 2), ("march", 3), ("april", 4), ("may", 5), ("june", 6),
    ("july", 7), ("august", 8), ("september", 9), ("october", 10), ("november", 11),
    ("december", 12)]⟩

def frLocale : Locale :=
  ⟨[("janvier", 1), ("février", 2), ("mars", 3), ("avril", 4), ("mai", 5), ("juin", 6),
    ("juillet", 7), ("août", 8), ("septembre", 9), ("octobre", 10), ("novembre", 11),
    ("décembre", 12)]⟩

def monthFromLocale (loc : Locale) (name : String) : Option Nat :=
  loc.months.lookup (strLower name)

/-- Models strptime of a string built as day-name-year with the month-name
directive (the separators match by construction, so only the three fields
matter).  Covers both the '%d de %B de %Y' and the '%d of %B of %Y' calls. -/
def strptimeLong (loc : Locale) (dayS monthS yearS : String) : Option Date :=
  (parsePctDay dayS).bind fun d =>
    (monthFromLocale loc monthS).bind fun m =>
      (parsePctYear yearS).bind fun y => mkValidDate y m d

/-- Models strptime of the constructed day-month-year string with '%d-%m-%Y'
(separators match by construction). -/
def strptimeShortNum (dayS monthS yearS : String) : Option Date :=
  (parsePctDay dayS).bind fun d =>
    (parsePctMonth monthS).bind fun m =>
      (parsePctYear yearS).bind fun y => mkValidDate y m d

/-- Models strftime('%d-%m-%y'). -/
def pad2 (n : Nat) : String :=
  if n < 10 then String.mk ['0', Char.ofNat (48 + n)]
  else String.mk [Char.ofNat (48 + n / 10 % 10), Char.ofNat (48 + n % 10)]

def strftimeDdMmYy (d : Date) : String :=
  pad2 d.day ++ "-" ++ pad2 d.month ++ "-" ++ pad2 (d.year % 100)

/-- Models str.zfill(2) on the digit-only captures fed to it: left-pad with
zeros to width two. -/
def zfill2 (s : String) : String :=
  if s.data.length ≥ 2 then s else String.mk (List.replicate (2 - s.data.length) '0') ++ s

/-- The fixed Spanish-to-English month table MONTH_MAPPING of the source. -/
def MONTH_MAPPING : List (String × String) :=
  [("enero", "January"), ("febrero", "February"), ("marzo", "March"),
   ("abril", "April"), ("mayo", "May"), ("junio", "June"),
   ("julio", "July"), ("agosto", "August"), ("septiembre", "September"),
   ("octubre", "October"), ("noviembre", "November"), ("diciembre", "December")]

/-- FacturaExtractor._parse_date: given the three captured groups and the
rule's format tag, produce the canonical date string or a format-error
sentinel.  The long format first parses the untranslated month name through
the host locale, and only on failure translates it through MONTH_MAPPING and
parses again (still through the host locale's month-name directive). -/
def parse_date (loc : Locale) (g1 g2 g3 : String) (fmtTag : String) : String :=
  if fmtTag = "LONG_FORMAT" then
    match strptimeLong loc g1 g2 g3 with
    | some dt => strftimeDdMmYy dt
    | none =>
      match strptimeLong loc g1 ((MONTH_MAPPING.lookup (strLower g2)).getD g2) g3 with
      | some dt => strftimeDdMmYy dt
      | none => "Error de Formato (Largo Fallido)"
  else if fmtTag = "DD_MM_YY" then
    let day := zfill2 g1
    let month := zfill2 g2
    let year := if g3.data.length = 2 then "20" ++ g3 else g3
    match strptimeShortNum day month year with
    | some dt => strftimeDdMmYy dt
    | none => "Error de Formato (Corto Fallido)"
  else "Error de Formato (Parseo)"

/-!
## Client-name cleaning and the rule engine
-/

/-- The cleanup steps applied to a raw client capture in _find_client_in_text:
strip a leading honorific label, strip a registration-id field and everything
after it, remove colons, trimming whitespace after each step. -/
def cleanClient (raw : String) : String :=
  let r1 := pyStrip (pySub true reHonorClean "" raw)
  let r2 := pyStrip (pySub true reRutClean "" r1)
  pyStrip (removeChar ':' r2)

/-- A configured extraction rule: a bare pattern, or a pattern tagged with a
date format (the dict rules of the DATE field). -/
inductive Rule where
  | bare (re : Regex)
  | dated (re : Regex) (fmt : String)
deriving DecidableEq

def ruleRegex : Rule → Regex
  | .bare r => r
  | .dated r _ => r

def ruleFmt : Rule → String
  | .bare _ => ""
  | .dated _ f => f

/-- EXTRACTION_RULES of the source: field name to ordered rule list. -/
def EXTRACTION_RULES : List (String × List Rule) :=
  [("CLIENT", [.bare reClient1, .bare reClient2, .bare reClient3]),
   ("NUMBER", [.bare reNumber1, .bare reNumber2, .bare reNumber3]),
   ("DATE", [.dated reDateLong "LONG_FORMAT", .dated reDateShort "DD_MM_YY"]),
   ("TOTAL", [.bare reTotal1, .bare reTotal2]),
   ("DESCRIPTION", [.bare reDesc1, .bare reDesc2, .bare reDesc3, .bare reDesc4, .bare reDesc5])]

def rulesFor (field : String) : List Rule :=
  (EXTRACTION_RULES.lookup field).getD []

/-- Case flag of FacturaExtractor._try_find: IGNORECASE exactly when the field
is not DESCRIPTION. -/
def ciFor (field : String) : Bool :=
  !(["DESCRIPTION"] : List String).contains field

abbrev MatchInfo := Nat × Nat × Caps

/-- The value returned by the rule loop when a rule's search hits: group 1
stripped when the pattern has groups, the match and the rule consumed. -/
def hitResult (ci : Bool) (text : String) (rule : Rule) :
    String × Option MatchInfo × Option Rule :=
  match reSearch ci (ruleRegex rule) text with
  | some mi =>
    (if 0 < numGroups (ruleRegex rule) then pyStrip (groupStr text mi.2.2 1) else "",
     some mi, some rule)
  | none => ("No encontrado", none, none)

/-- The sequential pattern loop of FacturaExtractor._try_find. -/
def tryFindList (ci : Bool) (text : String) : List Rule → String × Option MatchInfo × Option Rule
  | [] => ("No encontrado", none, none)
  | rule :: rest =>
    match reSearch ci (ruleRegex rule) text with
    | some mi =>
      (if 0 < numGroups (ruleRegex rule) then pyStrip (groupStr text mi.2.2 1) else "",
       some mi, some rule)
    | none => tryFindList ci text rest

/-- FacturaExtractor._try_find. -/
def try_find (text : String) (field : String) : String × Option MatchInfo × Option Rule :=
  tryFindList (ciFor field) text (rulesFor field)

/-- The pattern loop of _find_client_in_text: case-insensitive search over the
CLIENT rules, cleaning the first captured hit. -/
def findClientList (text : String) : List Regex → String
  | [] => "No encontrado"
  | r :: rest =>
    match reSearch true r text with
    | some mi =>
      cleanClient (if 0 < numGroups r then pyStrip (groupStr text mi.2.2 1) else "")
    | none => findClientList text rest

/-- _find_client_in_text applied to the CLIENT rules of EXTRACTION_RULES. -/
def find_client_in_text (text : String) : String :=
  findClientList text ((rulesFor "CLIENT").map ruleRegex)

/-!
## PDF extraction
-/

structure PdfRec where
  client : String
  date : String
  number : String
  dollars : String
  pesos : String
  euros : String
  description : String
deriving DecidableEq

/-- FacturaExtractor.extract_all on normalized text. -/
def extract_all (loc : Locale) (text : String) : PdfRec :=
  let extractedName := find_client_in_text text
  let extractedNumber := (try_find text "NUMBER").1
  let dateRes := try_find text "DATE"
  let extractedDate :=
    match dateRes.2.1, dateRes.2.2 with
    | some mi, some rule =>
      parse_date loc (groupStr text mi.2.2 1) (groupStr text mi.2.2 2)
        (groupStr text mi.2.2 3) (ruleFmt rule)
    | _, _ => "No encontrado"
  let extractedTotal := (try_find text "TOTAL").1
  let descRaw := (try_find text "DESCRIPTION").1
  let extractedDescription :=
    if descRaw = "No encontrado" then "Documento Genérico (Default)" else descRaw
  { client := extractedName, date := extractedDate, number := extractedNumber,
    dollars := "", pesos := extractedTotal, euros := "", description := extractedDescription }

/-- FacturaExtractor.__init__: a readable document's text is normalized
(newlines to spaces, whitespace runs collapsed, stripped); when the upstream
reader fails, the exception is caught inside the constructor and the text is
set to the empty string. -/
def facturaText : Option String → String
  | some raw => pyStrip (pySub false reWsRun " " (replaceChar '\r' ' ' (replaceChar '\n' ' ' raw)))
  | none => ""

/-- extract_data_from_pdf: the wrapper around the extractor.  Its own
exception branch (the all-N/A record) is unreachable for a text-extraction
failure, because the constructor already recovers with empty text and
extract_all is total. -/
def extract_data_from_pdf (loc : Locale) (doc : Option String) : PdfRec :=
  extract_all loc (facturaText doc)

/-!
## DOCX extraction
-/

structure QuoteRec where
  quotationNumber : String
  quotationDate : String
deriving DecidableEq

def splitOnChar (sep : Char) : List Char → List (List Char)
  | [] => [[]]
  | c :: rest =>
    let r := splitOnChar sep rest
    if c = sep then [] :: r
    else
      match r with
      | [] => [[c]]
      | h :: t => (c :: h) :: t

/-- Models strptime of the raw captured date with '%d<sep>%m<sep>%Y': the
string must consist of exactly three separator-delimited fields accepted by
the day, month-number and four-digit-year directives. -/
def strptimeSepY4 (sep : Char) (s : String) : Option Date :=
  match splitOnChar sep s.data with
  | [a, b, c] =>
    (parsePctDay (String.mk a)).bind fun d =>
      (parsePctMonth (String.mk b)).bind fun m =>
        (parsePctYear (String.mk c)).bind fun y => mkValidDate y m d
  | _ => none

/-- Models strptime of the raw captured date with '%d<sep>%m<sep>%y'
(two-digit year). -/
def strptimeSepY2 (sep : Char) (s : String) : Option Date :=
  match splitOnChar sep s.data with
  | [a, b, c] =>
    (parsePctDay (String.mk a)).bind fun d =>
      (parsePctMonth (String.mk b)).bind fun m =>
        (parsePctYear2 (String.mk c)).bind fun y => mkValidDate y m d
  | _ => none

/-- extract_data_from_docx: an unreadable document (any exception) yields the
initial not-found record; otherwise the joined paragraph text is normalized
and the quotation pattern searched case-insensitively, the captured number is
stripped of a leading CB, and the captured date is reformatted through the
three-format chain, falling back to the raw capture. -/
def extract_data_from_docx (doc : Option String) : QuoteRec :=
  match doc with
  | none => ⟨"No encontrado", "No encontrado"⟩
  | some raw =>
    let text := pyStrip (pySub false reWsRun " " raw)
    match reSearch true reQuote text with
    | some mi =>
      let qn0 := pyStrip (groupStr text mi.2.2 1)
      let qdRaw := pyStrip (groupStr text mi.2.2 2)
      let qn := pyStrip (pySub true reCb "" qn0)
      let qd :=
        match strptimeSepY4 '/' qdRaw with
        | some dt => strftimeDdMmYy dt
        | none =>
          match strptimeSepY4 '-' qdRaw with
          | some dt => strftimeDdMmYy dt
          | none =>
            match strptimeSepY2 '/' qdRaw with
            | some dt => strftimeDdMmYy dt
            | none => qdRaw
      ⟨qn, qd⟩
    | none => ⟨"No encontrado", "No encontrado"⟩

/-!
## Amount normalization (clean_total)

Python float() is modelled over exact rationals: sign, integer/fraction digit
runs (single underscores between digits allowed), optional exponent, and the
inf/nan words.  IEEE rounding and overflow of the host float type are outside
the model; the inputs the program feeds this function are digit/dot/comma
strings and sentinels, for which the rational value is exact.
-/

inductive PyFloat where
  | finite (q : ℚ)
  | inf
  | ninf
  | nan
deriving DecidableEq

/-- Greedy digit run permitting single underscores flanked by digits; returns
the digits (underscores dropped) and the remaining input. -/
def digitRun : List Char → List Char × List Char
  | [] => ([], [])
  | c :: rest =>
    if c.isDigit then
      let (ds, r) := digitRun rest
      (c :: ds, r)
    else if c = '_' then
      match rest with
      | d :: rest' =>
        if d.isDigit then
          let (ds, r) := digitRun rest'
          (d :: ds, r)
        else ([], c :: rest)
      | [] => ([], [c])
    else ([], c :: rest)

/-- Decimal mantissa with optional exponent, unsigned; the value is returned
as a numerator/denominator pair of naturals (value = num / den).  All
arithmetic is on naturals so the kernel evaluates it directly. -/
def parseDecimal (l : List Char) : Option (Nat × Nat) :=
  let (ip, r1) := digitRun l
  let (hadDot, fp, r2) :=
    match r1 with
    | '.' :: r =>
      let (ds, rr) := digitRun r
      (true, ds, rr)
    | _ => (false, [], r1)
  if ip = [] ∧ (¬ hadDot ∨ fp = []) then none
  else
    let num := digitsVal ip * 10 ^ fp.length + digitsVal fp
    let den := 10 ^ fp.length
    match r2 with
    | [] => some (num, den)
    | e :: r3 =>
      if e = 'e' ∨ e = 'E' then
        let (eneg, r4) :=
          match r3 with
          | '+' :: r => (false, r)
          | '-' :: r => (true, r)
          | _ => (false, r3)
        let (eds, r5) := digitRun r4
        if eds = [] ∨ r5 ≠ [] then none
        else some (if eneg then (num, den * 10 ^ digitsVal eds)
                   else (num * 10 ^ digitsVal eds, den))
      else none

/-- Models float(s) for a string argument. -/
def pyFloat (s : String) : Option PyFloat :=
  match stripData s.data with
  | [] => none
  | c :: rest =>
    let (neg, body) :=
      if c = '+' then (false, rest) else if c = '-' then (true, rest) else (false, c :: rest)
    let low := body.map myLower
    if low = "inf".data ∨ low = "infinity".data then some (if neg then .ninf else .inf)
    else if low = "nan".data then some .nan
    else
      match parseDecimal body with
      | some (num, den) =>
        some (.finite (Rat.divInt (if neg then -(num : Int) else (num : Int)) (den : Int)))
      | none => none

/-- The transformation clean_total applies before parsing: remove every dot,
then turn every comma into a dot. -/
def amountTransform (x : String) : String :=
  replaceChar ',' '.' (removeChar '.' x)

/-- clean_total of the source: sentinels pass through, otherwise transform and
attempt a float parse, returning the original string on failure.  Total, so it
never raises to its caller. -/
def clean_total (x : String) : String ⊕ PyFloat :=
  if x = "No encontrado" ∨ x = "N/A" ∨ x = "Documento Genérico (Default)" ∨
      x = "No DOCX adjunto" then .inl x
  else
    match pyFloat (amountTransform x) with
    | some v => .inr v
    | none => .inl x

/-!
## Consolidation pipeline (the processing block of main)
-/

/-- One output row: the fields of a registered record, in the column order of
the final frame. -/
structure Row where
  fileName : String
  client : String
  date : String
  number : String
  quotationNumber : String
  quotationDate : String
  dollars : String
  pesos : String
  euros : String
  description : String
deriving DecidableEq

/-- The registered record for one accepted primary document: the extracted
record, the quotation placeholders, and the file name. -/
def mkRowFromRec (name : String) (r : PdfRec) : Row :=
  { fileName := name, client := r.client, date := r.date, number := r.number,
    quotationNumber := "No DOCX adjunto", quotationDate := "No DOCX adjunto",
    dollars := r.dollars, pesos := r.pesos, euros := r.euros, description := r.description }

def digitCh (n : Nat) : Char := Char.ofNat (48 + n)

/-- Decimal rendering of a natural number, fuelled (fuel at least the number
itself) so the kernel can evaluate it. -/
def natReprCore : Nat → Nat → List Char
  | 0, _ => []
  | fuel + 1, n => if n = 0 then [] else natReprCore fuel (n / 10) ++ [digitCh (n % 10)]

/-- Decimal rendering of a natural number, as interpolated into the
disambiguation suffix of a merge key. -/
def natRepr (n : Nat) : String :=
  if n = 0 then "0" else String.mk (natReprCore n n)

/-- The while-loop of main that finds a free disambiguated key: try base_1,
base_2, ... in order.  Fuelled; one more candidate than there are taken keys
always suffices (the candidates are pairwise distinct). -/
def uniqueKeyGo (taken : List String) (base : String) : Nat → Nat → String
  | 0, count => base ++ "_" ++ natRepr count
  | fuel + 1, count =>
    let cand := base ++ "_" ++ natRepr count
    if cand ∈ taken then uniqueKeyGo taken base fuel (count + 1) else cand

/-- Key disambiguation of main: the merge key itself if free, otherwise the
first free suffixed candidate. -/
def uniqueKey (taken : List String) (base : String) : String :=
  if base ∈ taken then uniqueKeyGo taken base (taken.length + 1) 1 else base

/-- The consolidation state: the ordered key list pdf_client_keys and the
insertion-ordered dictionary all_data. -/
structure St where
  keys : List String
  data : List (String × Row)

/-- Whether main registers a row for this primary document: the uppercased,
stripped client must be neither the uppercased not-found sentinel nor empty. -/
def pdfAccepted (loc : Locale) (p : String × Option String) : Bool :=
  let mergeKey := pyStrip (strUpper (extract_data_from_pdf loc p.2).client)
  decide (mergeKey ≠ "NO ENCONTRADO" ∧ mergeKey ≠ "")

/-- Phase-1 loop body of main: extract, compute the merge key, and either
register the record under a fresh disambiguated key or drop the document. -/
def registerPdf (loc : Locale) (st : St) (p : String × Option String) : St :=
  let result := extract_data_from_pdf loc p.2
  let mergeKey := pyStrip (strUpper result.client)
  if mergeKey ≠ "NO ENCONTRADO" ∧ mergeKey ≠ "" then
    let ukey := uniqueKey (st.data.map Prod.fst) mergeKey
    { keys := st.keys ++ [ukey], data := st.data ++ [(ukey, mkRowFromRec p.1 result)] }
  else st

/-- Phase 1 of main over the uploaded primary documents, in upload order. -/
def registerPdfs (loc : Locale) (pdfs : List (String × Option String)) : St :=
  pdfs.foldl (registerPdf loc) ⟨[], []⟩

/-- dict.update with the two quotation fields of a secondary record:
overwrite-union into the row. -/
def mergeQuote (r : Row) (q : QuoteRec) : Row :=
  { r with quotationNumber := q.quotationNumber, quotationDate := q.quotationDate }

/-- Update of the entry of `key` inside all_data. -/
def updateAssoc (data : List (String × Row)) (key : String) (q : QuoteRec) :
    List (String × Row) :=
  data.map (fun kv => if kv.1 = key then (kv.1, mergeQuote kv.2 q) else kv)

/-- Phase-2 loop of main: the i-th secondary document is extracted and merged
into the record registered under the i-th key, for i below the minimum of the
two counts; excess secondary documents are ignored. -/
def mergeLoop (data : List (String × Row)) :
    List String → List (Option String) → List (String × Row)
  | k :: ks, d :: ds => mergeLoop (updateAssoc data k (extract_data_from_docx d)) ks ds
  | _, _ => data

/-- Dictionary lookup all_data[key]. -/
def assocFind (data : List (String × Row)) (k : String) : Option Row :=
  match data with
  | [] => none
  | (k', r) :: rest => if k' = k then some r else assocFind rest k

/-- A final emitted row: the client column truncated at the first underscore
and the monetary column of mixed string/number type. -/
structure FinalRow where
  fileName : String
  client : String
  date : String
  number : String
  quotationNumber : String
  quotationDate : String
  dollars : String
  pesos : String ⊕ PyFloat
  euros : String
  description : String
deriving DecidableEq

/-- Phase 3 of main on one row: the CLIENT column mapped through
split-on-underscore-take-first and the PESOS column through clean_total; all
other columns emitted unchanged. -/
def finalizeRow (r : Row) : FinalRow :=
  { fileName := r.fileName, client := underscoreHead r.client, date := r.date,
    number := r.number, quotationNumber := r.quotationNumber,
    quotationDate := r.quotationDate, dollars := r.dollars,
    pesos := clean_total r.pesos, euros := r.euros, description := r.description }

def dummyRow : Row := ⟨"", "", "", "", "", "", "", "", "", ""⟩

/-- The whole processing block of main: register primary documents, merge
secondary documents positionally, and emit the consolidated rows in
registration order. -/
def runApp (loc : Locale) (pdfs : List (String × Option String))
    (docs : List (Option String)) : List FinalRow :=
  let st := registerPdfs loc pdfs
  let data2 := mergeLoop st.data st.keys docs
  let consolidated := st.keys.map (fun k => (assocFind data2 k).getD dummyRow)
  consolidated.map finalizeRow

/-!
## Derived descriptions used by the theorems
-/

/-- The primary documents that register a row, in upload order. -/
def acceptedPdfs (loc : Locale) (pdfs : List (String × Option String)) :
    List (String × Option String) :=
  pdfs.filter (pdfAccepted loc)

/-- The registered record of an accepted primary document. -/
def registeredRow (loc : Locale) (p : String × Option String) : Row :=
  mkRowFromRec p.1 (extract_data_from_pdf loc p.2)

/-- Positional merge on the row level: the i-th row receives the i-th
secondary record; rows beyond the secondary count are unchanged. -/
def mergedRows : List Row → List (Option String) → List Row
  | r :: rs, d :: ds => mergeQuote r (extract_data_from_docx d) :: mergedRows rs ds
  | rs, _ => rs

/-- The long-form date strategy as the specification words it, for comparison
with parse_date: translate the month name through the fixed 12-entry table and
parse against the bundled English month list (the table of cLocale, consulted
unconditionally rather than through the host locale), retrying with the
untranslated name as the fallback. -/
def parseDateLongPerSpec (g1 g2 g3 : String) : String :=
  match strptimeLong cLocale g1 ((MONTH_MAPPING.lookup (strLower g2)).getD g2) g3 with
  | some dt => strftimeDdMmYy dt
  | none =>
    match strptimeLong cLocale g1 g2 g3 with
    | some dt => strftimeDdMmYy dt
    | none => "Error de Formato (Largo Fallido)"

/-!
## String-normalization lemmas
-/

theorem mkData (s : String) : String.mk s.data = s := rfl

theorem dropWhile_dropWhile {α : Type*} (p : α → Bool) (l : List α) :
    (l.dropWhile p).dropWhile p = l.dropWhile p := by
  induction l with
  | nil => rfl
  | cons a l ih =>
    by_cases h : p a
    · simp [List.dropWhile_cons, h, ih]
    · simp [List.dropWhile_cons, h]

theorem head_dropWhile_false {α : Type*} {p : α → Bool} {l t : List α} {a : α}
    (h : l.dropWhile p = a :: t) : p a = false := by
  have := List.head?_dropWhile_not p l
  rw [h] at this
  simpa using this

theorem stripData_dropWhile (l : List Char) :
    (stripData l).dropWhile isSpaceChar = stripData l := by
  unfold stripData
  have hsuf : (l.dropWhile isSpaceChar).reverse.dropWhile isSpaceChar <:+
      (l.dropWhile isSpaceChar).reverse := List.dropWhile_suffix _
  have hpre : ((l.dropWhile isSpaceChar).reverse.dropWhile isSpaceChar).reverse <+:
      l.dropWhile isSpaceChar := by
    have hp := (@List.reverse_prefix Char
      ((l.dropWhile isSpaceChar).reverse.dropWhile isSpaceChar)
      ((l.dropWhile isSpaceChar).reverse)).mpr hsuf
    rw [List.reverse_reverse] at hp
    exact hp
  match hYr : ((l.dropWhile isSpaceChar).reverse.dropWhile isSpaceChar).reverse with
  | [] => simp
  | a :: t =>
    obtain ⟨u, hu⟩ := hpre
    rw [hYr] at hu
    have hfalse : isSpaceChar a = false :=
      head_dropWhile_false (show List.dropWhile isSpaceChar l = a :: (t ++ u) by
        rw [← hu]; simp)
    simp [List.dropWhile_cons, hfalse]

theorem stripData_reverse_dropWhile (l : List Char) :
    (stripData l).reverse.dropWhile isSpaceChar = (stripData l).reverse := by
  unfold stripData
  rw [List.reverse_reverse]
  exact dropWhile_dropWhile _ _

theorem stripData_idem (l : List Char) : stripData (stripData l) = stripData l :=
  calc stripData (stripData l)
      = (((stripData l).dropWhile isSpaceChar).reverse.dropWhile isSpaceChar).reverse := rfl
    _ = ((stripData l).reverse.dropWhile isSpaceChar).reverse := by
        rw [stripData_dropWhile]
    _ = ((stripData l).reverse).reverse := by rw [stripData_reverse_dropWhile]
    _ = stripData l := List.reverse_reverse _

theorem pyStrip_idem (s : String) : pyStrip (pyStrip s) = pyStrip s := by
  show String.mk (stripData (stripData s.data)) = String.mk (stripData s.data)
  rw [stripData_idem]

theorem stripData_subset (l : List Char) : stripData l ⊆ l := by
  intro x hx
  unfold stripData at hx
  rw [List.mem_reverse] at hx
  have h1 := (@List.dropWhile_suffix Char ((l.dropWhile isSpaceChar).reverse) isSpaceChar).subset hx
  rw [List.mem_reverse] at h1
  exact (List.dropWhile_suffix isSpaceChar).subset h1

theorem pySub_id_of_no_match {ci : Bool} {r : Regex} {rep : String} {s : String}
    (h : reSearch ci r s = none) : pySub ci r rep s = s := by
  unfold reSearch at h
  unfold pySub subAllAux
  rw [h]

theorem removeChar_id_of_not_mem {a : Char} {s : String} (h : a ∉ s.data) :
    removeChar a s = s := by
  unfold removeChar
  have he : s.data.filter (fun c => decide (c ≠ a)) = s.data := by
    apply List.filter_eq_self.mpr
    intro c hc
    simp only [decide_eq_true_eq]
    rintro rfl
    exact h hc
  rw [he, mkData]

theorem dataMk (l : List Char) : (String.mk l).data = l := rfl

theorem colon_not_mem_step (x : String) : ':' ∉ (pyStrip (removeChar ':' x)).data := by
  intro hmem
  have h1 := stripData_subset _ hmem
  rw [removeChar, dataMk] at h1
  simp only [List.mem_filter, decide_eq_true_eq] at h1
  exact h1.2 rfl

theorem cleanClient_colon_not_mem (s : String) : ':' ∉ (cleanClient s).data := by
  unfold cleanClient
  exact colon_not_mem_step _

theorem pyStrip_cleanClient (s : String) : pyStrip (cleanClient s) = cleanClient s :=
  pyStrip_idem _

/-- C6 (counterexample): the Client-Name Cleaner is not idempotent as claimed:
on the input "SR.A SR.A JUAN" one application yields "SR.A JUAN" (the leading
honorific is stripped once) while a second application strips the surviving
honorific and yields "JUAN". -/
theorem c6_counterexample :
    cleanClient (cleanClient "SR.A SR.A JUAN") ≠ cleanClient "SR.A SR.A JUAN" := by
  decide

/-- C6 (amended): the Client-Name Cleaner is idempotent on every input whose
once-cleaned output neither begins with a further honorific-label match nor
contains a registration-id match; in general a second application can strip a
further honorific or registration-id field, so cleaning twice can differ from
cleaning once. -/
theorem c6_amended (s : String)
    (h1 : reSearch true reHonorClean (cleanClient s) = none)
    (h2 : reSearch true reRutClean (cleanClient s) = none) :
    cleanClient (cleanClient s) = cleanClient s := by
  have ht := pyStrip_cleanClient s
  have hc : removeChar ':' (cleanClient s) = cleanClient s :=
    removeChar_id_of_not_mem (cleanClient_colon_not_mem s)
  show pyStrip (removeChar ':' (pyStrip (pySub true reRutClean ""
    (pyStrip (pySub true reHonorClean "" (cleanClient s)))))) = cleanClient s
  rw [pySub_id_of_no_match h1, ht, pySub_id_of_no_match h2, ht, hc, ht]

/-- Witness for the amended C6 theorem at a concrete clean name. -/
theorem c6_amended_witness :
    reSearch true reHonorClean (cleanClient "JUAN PEREZ") = none ∧
    reSearch true reRutClean (cleanClient "JUAN PEREZ") = none ∧
    cleanClient (cleanClient "JUAN PEREZ") = cleanClient "JUAN PEREZ" :=
  ⟨by decide, by decide, c6_amended "JUAN PEREZ" (by decide) (by decide)⟩

/-!
## Freshness of disambiguated merge keys
-/

theorem natReprCore_eq_digits : ∀ (fuel n : Nat), n ≤ fuel →
    natReprCore fuel n = ((Nat.digits 10 n).map digitCh).reverse := by
  intro fuel
  induction fuel with
  | zero =>
    intro n h
    interval_cases n
    simp [natReprCore]
  | succ fuel ih =>
    intro n h
    by_cases h0 : n = 0
    · subst h0
      simp [natReprCore]
    · have hd : Nat.digits 10 n = n % 10 :: Nat.digits 10 (n / 10) :=
        Nat.digits_def' (by norm_num) (Nat.pos_of_ne_zero h0)
      have hle : n / 10 ≤ fuel := by
        have := Nat.div_lt_self (Nat.pos_of_ne_zero h0) (by norm_num : 1 < 10)
        omega
      simp [natReprCore, h0, ih _ hle, hd]

theorem digitCh_inj {a b : Nat} (ha : a < 10) (hb : b < 10) (h : digitCh a = digitCh b) :
    a = b := by
  interval_cases a <;> interval_cases b <;> revert h <;> decide

theorem mapDigitCh_inj : ∀ (l1 l2 : List Nat), (∀ x ∈ l1, x < 10) → (∀ x ∈ l2, x < 10) →
    l1.map digitCh = l2.map digitCh → l1 = l2 := by
  intro l1
  induction l1 with
  | nil =>
    intro l2 _ _ h
    cases l2 with
    | nil => rfl
    | cons b t => simp at h
  | cons a t1 ih =>
    intro l2 h1 h2 h
    cases l2 with
    | nil => simp at h
    | cons b t2 =>
      simp only [List.map_cons, List.cons.injEq] at h
      have hab : a = b :=
        digitCh_inj (h1 a (by simp)) (h2 b (by simp)) h.1
      have ht : t1 = t2 :=
        ih t2 (fun x hx => h1 x (by simp [hx])) (fun x hx => h2 x (by simp [hx])) h.2
      rw [hab, ht]

theorem natRepr_inj : Function.Injective natRepr := by
  intro m n h
  unfold natRepr at h
  by_cases hm : m = 0 <;> by_cases hn : n = 0
  · omega
  · exfalso
    rw [if_pos hm, if_neg hn, natReprCore_eq_digits n n le_rfl] at h
    have hdata : ['0'] = ((Nat.digits 10 n).map digitCh).reverse := congrArg String.data h
    have : (Nat.digits 10 n).map digitCh = ['0'] := by
      have := congrArg List.reverse hdata
      simpa using this.symm
    have hd : Nat.digits 10 n = [0] := by
      apply mapDigitCh_inj _ [0]
      · intro x hx
        exact Nat.digits_lt_base (by norm_num) hx
      · intro x hx
        simp at hx
        omega
      · simpa [digitCh] using this
    have := Nat.ofDigits_digits 10 n
    rw [hd] at this
    simp [Nat.ofDigits] at this
    omega
  · exfalso
    rw [if_neg hm, if_pos hn, natReprCore_eq_digits m m le_rfl] at h
    have hdata : ((Nat.digits 10 m).map digitCh).reverse = ['0'] := congrArg String.data h
    have : (Nat.digits 10 m).map digitCh = ['0'] := by
      have := congrArg List.reverse hdata
      simpa using this
    have hd : Nat.digits 10 m = [0] := by
      apply mapDigitCh_inj _ [0]
      · intro x hx
        exact Nat.digits_lt_base (by norm_num) hx
      · intro x hx
        simp at hx
        omega
      · simpa [digitCh] using this
    have := Nat.ofDigits_digits 10 m
    rw [hd] at this
    simp [Nat.ofDigits] at this
    omega
  · rw [if_neg hm, if_neg hn, natReprCore_eq_digits m m le_rfl,
      natReprCore_eq_digits n n le_rfl] at h
    have hdata := congrArg String.data h
    have hrev := congrArg List.reverse hdata
    simp only [dataMk, List.reverse_reverse] at hrev
    have hd : Nat.digits 10 m = Nat.digits 10 n := by
      apply mapDigitCh_inj
      · intro x hx
        exact Nat.digits_lt_base (by norm_num) hx
      · intro x hx
        exact Nat.digits_lt_base (by norm_num) hx
      · exact hrev
    have h1 := Nat.ofDigits_digits 10 m
    have h2 := Nat.ofDigits_digits 10 n
    rw [hd] at h1
    omega

theorem suffixCand_inj (base : String) :
    Function.Injective (fun n => base ++ "_" ++ natRepr n) := by
  intro a b h
  have hdata := congrArg String.data h
  simp only [String.data_append] at hdata
  have h1 := List.append_cancel_left hdata
  exact natRepr_inj (String.ext h1)

theorem uniqueKeyGo_not_mem (taken : List String) (base : String) :
    ∀ (fuel count : Nat), (∃ j < fuel, base ++ "_" ++ natRepr (count + j) ∉ taken) →
    uniqueKeyGo taken base fuel count ∉ taken := by
  intro fuel
  induction fuel with
  | zero =>
    intro count h
    obtain ⟨j, hj, _⟩ := h
    omega
  | succ fuel ih =>
    intro count h
    obtain ⟨j, hj, hfree⟩ := h
    by_cases hc : (base ++ "_" ++ natRepr count) ∈ taken
    · rw [uniqueKeyGo, if_pos hc]
      apply ih
      have hj0 : j ≠ 0 := by
        rintro rfl
        rw [Nat.add_zero] at hfree
        exact hfree hc
      refine ⟨j - 1, by omega, ?_⟩
      have harith : count + 1 + (j - 1) = count + j := by omega
      rw [harith]
      exact hfree
    · rw [uniqueKeyGo, if_neg hc]
      exact hc

theorem uniqueKey_not_mem (taken : List String) (base : String) :
    uniqueKey taken base ∉ taken := by
  unfold uniqueKey
  by_cases hb : base ∈ taken
  · rw [if_pos hb]
    apply uniqueKeyGo_not_mem
    by_contra hall
    push_neg at hall
    have hnodup : ((List.range (taken.length + 1)).map
        (fun j => base ++ "_" ++ natRepr (1 + j))).Nodup := by
      apply List.Nodup.map _ (List.nodup_range _)
      intro a b hab
      have := suffixCand_inj base hab
      omega
    have hsub : ((List.range (taken.length + 1)).map
        (fun j => base ++ "_" ++ natRepr (1 + j))).toFinset ⊆ taken.toFinset := by
      intro x hx
      rw [List.mem_toFinset] at hx ⊢
      rw [List.mem_map] at hx
      obtain ⟨j, hj, rfl⟩ := hx
      rw [List.mem_range] at hj
      exact hall j hj
    have h1 : taken.length + 1 ≤ taken.toFinset.card := by
      have hcard := List.toFinset_card_of_nodup hnodup
      have hlen : ((List.range (taken.length + 1)).map
          (fun j => base ++ "_" ++ natRepr (1 + j))).length = taken.length + 1 := by
        simp
      rw [hlen] at hcard
      rw [← hcard]
      exact Finset.card_le_card hsub
    have h2 := List.toFinset_card_le taken
    omega
  · rw [if_neg hb]
    exact hb

/-!
## Characterization of the consolidation pipeline
-/

/-- Invariant of the consolidation state: the dictionary's keys are exactly
the registered key list, without duplicates. -/
def StWF (st : St) : Prop := st.data.map Prod.fst = st.keys ∧ st.keys.Nodup

theorem registerPdf_spec (loc : Locale) (st : St) (p : String × Option String) :
    registerPdf loc st p =
      if pdfAccepted loc p then
        { keys := st.keys ++ [uniqueKey (st.data.map Prod.fst)
            (pyStrip (strUpper (extract_data_from_pdf loc p.2).client))],
          data := st.data ++ [(uniqueKey (st.data.map Prod.fst)
            (pyStrip (strUpper (extract_data_from_pdf loc p.2).client)),
            registeredRow loc p)] }
      else st := by
  by_cases h : (pyStrip (strUpper (extract_data_from_pdf loc p.2).client) ≠ "NO ENCONTRADO" ∧
      pyStrip (strUpper (extract_data_from_pdf loc p.2).client) ≠ "")
  · simp only [registerPdf, registeredRow, pdfAccepted]
    rw [if_pos h, if_pos (by simp [h])]
  · simp only [registerPdf, registeredRow, pdfAccepted]
    rw [if_neg h, if_neg (by simp [h])]

theorem registerPdf_wf (loc : Locale) (st : St) (p : String × Option String)
    (h : StWF st) : StWF (registerPdf loc st p) := by
  rw [registerPdf_spec]
  by_cases hp : pdfAccepted loc p
  · rw [if_pos hp]
    obtain ⟨hkeys, hnodup⟩ := h
    constructor
    · simp [hkeys]
    · rw [List.nodup_append]
      refine ⟨hnodup, List.nodup_singleton _, ?_⟩
      intro x hx hx1
      simp only [List.mem_singleton] at hx1
      subst hx1
      rw [← hkeys] at hx
      exact uniqueKey_not_mem (st.data.map Prod.fst)
        (pyStrip (strUpper (extract_data_from_pdf loc p.2).client)) hx
  · rw [if_neg hp]
    exact h

theorem registerPdf_rows (loc : Locale) (st : St) (p : String × Option String) :
    (registerPdf loc st p).data.map Prod.snd =
      st.data.map Prod.snd ++ if pdfAccepted loc p then [registeredRow loc p] else [] := by
  rw [registerPdf_spec]
  by_cases hp : pdfAccepted loc p
  · rw [if_pos hp, if_pos hp]
    simp
  · rw [if_neg hp, if_neg hp]
    simp

theorem registerFold_spec (loc : Locale) (pdfs : List (String × Option String)) :
    ∀ (st : St), StWF st →
    StWF (pdfs.foldl (registerPdf loc) st) ∧
    (pdfs.foldl (registerPdf loc) st).data.map Prod.snd =
      st.data.map Prod.snd ++ (pdfs.filter (pdfAccepted loc)).map (registeredRow loc) := by
  induction pdfs with
  | nil =>
    intro st h
    exact ⟨h, by simp⟩
  | cons p rest ih =>
    intro st h
    have hstep := registerPdf_wf loc st p h
    obtain ⟨hwf, hrows⟩ := ih (registerPdf loc st p) hstep
    refine ⟨hwf, ?_⟩
    rw [List.foldl_cons] at *
    rw [hrows, registerPdf_rows]
    by_cases hp : pdfAccepted loc p
    · rw [if_pos hp, List.filter_cons_of_pos hp]
      simp
    · rw [if_neg hp, List.filter_cons_of_neg (by simpa using hp)]
      simp

theorem registerPdfs_wf (loc : Locale) (pdfs : List (String × Option String)) :
    StWF (registerPdfs loc pdfs) :=
  (registerFold_spec loc pdfs ⟨[], []⟩ ⟨rfl, List.nodup_nil⟩).1

theorem registerPdfs_rows (loc : Locale) (pdfs : List (String × Option String)) :
    (registerPdfs loc pdfs).data.map Prod.snd =
      (acceptedPdfs loc pdfs).map (registeredRow loc) := by
  have := (registerFold_spec loc pdfs ⟨[], []⟩ ⟨rfl, List.nodup_nil⟩).2
  simpa [registerPdfs, acceptedPdfs] using this

theorem updateAssoc_of_not_mem (key : String) (q : QuoteRec) :
    ∀ (data : List (String × Row)), key ∉ data.map Prod.fst → updateAssoc data key q = data := by
  intro data
  induction data with
  | nil => intro _; rfl
  | cons kv rest ih =>
    intro h
    simp only [List.map_cons, List.mem_cons, not_or] at h
    show (if kv.1 = key then (kv.1, mergeQuote kv.2 q) else kv) :: updateAssoc rest key q =
      kv :: rest
    rw [if_neg (fun hc => h.1 hc.symm), ih h.2]

theorem mergeLoop_cons_not_mem (k : String) (r : Row) :
    ∀ (ks : List String) (ds : List (Option String)) (rest : List (String × Row)),
    k ∉ ks →
    mergeLoop ((k, r) :: rest) ks ds = (k, r) :: mergeLoop rest ks ds := by
  intro ks
  induction ks with
  | nil =>
    intro ds rest _
    cases ds <;> rfl
  | cons k' ks' ih =>
    intro ds rest hk
    cases ds with
    | nil => rfl
    | cons d ds' =>
      simp only [List.mem_cons, not_or] at hk
      have hupd : updateAssoc ((k, r) :: rest) k' (extract_data_from_docx d) =
          (k, r) :: updateAssoc rest k' (extract_data_from_docx d) := by
        show (if (k, r).1 = k' then ((k, r).1, mergeQuote (k, r).2 (extract_data_from_docx d))
          else (k, r)) :: updateAssoc rest k' (extract_data_from_docx d) = _
        rw [if_neg hk.1]
      show mergeLoop (updateAssoc ((k, r) :: rest) k' (extract_data_from_docx d)) ks' ds' = _
      rw [hupd, ih ds' _ hk.2]
      rfl

theorem mergeLoop_spec :
    ∀ (ks : List String) (data : List (String × Row)) (ds : List (Option String)),
    data.map Prod.fst = ks → ks.Nodup →
    (mergeLoop data ks ds).map Prod.fst = ks ∧
    (mergeLoop data ks ds).map Prod.snd = mergedRows (data.map Prod.snd) ds := by
  intro ks
  induction ks with
  | nil =>
    intro data ds hmap _
    have hdata : data = [] := by
      cases data with
      | nil => rfl
      | cons kv rest => simp at hmap
    subst hdata
    cases ds <;> simp [mergeLoop, mergedRows]
  | cons k ks' ih =>
    intro data ds hmap hnodup
    cases data with
    | nil => simp at hmap
    | cons kv rest =>
      obtain ⟨k0, r⟩ := kv
      simp only [List.map_cons, List.cons.injEq] at hmap
      obtain ⟨hk0, hrest⟩ := hmap
      subst hk0
      have hknotin : k0 ∉ ks' := (List.nodup_cons.mp hnodup).1
      have hnodup' : ks'.Nodup := (List.nodup_cons.mp hnodup).2
      cases ds with
      | nil =>
        refine ⟨by simp [mergeLoop, hrest], by simp [mergeLoop, mergedRows]⟩
      | cons d ds' =>
        have hupd : updateAssoc ((k0, r) :: rest) k0 (extract_data_from_docx d) =
            (k0, mergeQuote r (extract_data_from_docx d)) :: rest := by
          show (if (k0, r).1 = k0 then ((k0, r).1, mergeQuote (k0, r).2
              (extract_data_from_docx d)) else (k0, r)) ::
            updateAssoc rest k0 (extract_data_from_docx d) = _
          rw [if_pos (show (k0, r).1 = k0 from rfl),
            updateAssoc_of_not_mem k0 _ rest (by rw [hrest]; exact hknotin)]
        have hstep : mergeLoop ((k0, r) :: rest) (k0 :: ks') (d :: ds') =
            (k0, mergeQuote r (extract_data_from_docx d)) :: mergeLoop rest ks' ds' := by
          show mergeLoop (updateAssoc ((k0, r) :: rest) k0 (extract_data_from_docx d)) ks' ds' = _
          rw [hupd]
          exact mergeLoop_cons_not_mem _ _ ks' ds' rest hknotin
        obtain ⟨ih1, ih2⟩ := ih rest ds' hrest hnodup'
        rw [hstep]
        constructor
        · simp [ih1]
        · simp only [List.map_cons, ih2, mergedRows]

theorem assocFind_cons_ne (k' : String) (r : Row) (rest : List (String × Row)) (k : String)
    (h : k' ≠ k) : assocFind ((k', r) :: rest) k = assocFind rest k := by
  show (if k' = k then some r else assocFind rest k) = assocFind rest k
  rw [if_neg h]

theorem mapAssocFind (data : List (String × Row)) (h : (data.map Prod.fst).Nodup) :
    (data.map Prod.fst).map (fun k => (assocFind data k).getD dummyRow) =
      data.map Prod.snd := by
  induction data with
  | nil => rfl
  | cons kv rest ih =>
    obtain ⟨k, r⟩ := kv
    simp only [List.map_cons] at h ⊢
    rw [List.nodup_cons] at h
    have hhead : assocFind ((k, r) :: rest) k = some r := by
      unfold assocFind
      rw [if_pos rfl]
    rw [hhead]
    have htail : (rest.map Prod.fst).map (fun k' => (assocFind ((k, r) :: rest) k').getD dummyRow)
        = (rest.map Prod.fst).map (fun k' => (assocFind rest k').getD dummyRow) := by
      apply List.map_congr_left
      intro k' hk'
      rw [assocFind_cons_ne k r rest k' (fun he => h.1 (he ▸ hk'))]
    rw [htail, ih h.2]
    simp

theorem runApp_eq (loc : Locale) (pdfs : List (String × Option String))
    (docs : List (Option String)) :
    runApp loc pdfs docs =
      (mergedRows ((acceptedPdfs loc pdfs).map (registeredRow loc)) docs).map finalizeRow := by
  obtain ⟨hkeys, hnodup⟩ := registerPdfs_wf loc pdfs
  have hrows := registerPdfs_rows loc pdfs
  obtain ⟨hm1, hm2⟩ := mergeLoop_spec (registerPdfs loc pdfs).keys
    (registerPdfs loc pdfs).data docs hkeys hnodup
  simp only [runApp]
  have hfind : (registerPdfs loc pdfs).keys.map
      (fun k => (assocFind (mergeLoop (registerPdfs loc pdfs).data
        (registerPdfs loc pdfs).keys docs) k).getD dummyRow) =
      (mergeLoop (registerPdfs loc pdfs).data (registerPdfs loc pdfs).keys docs).map
        Prod.snd := by
    have := mapAssocFind (mergeLoop (registerPdfs loc pdfs).data
      (registerPdfs loc pdfs).keys docs) (by rw [hm1]; exact hnodup)
    rw [hm1] at this
    exact this
  rw [hfind, hm2, hrows]

theorem mergedRows_length : ∀ (rs : List Row) (ds : List (Option String)),
    (mergedRows rs ds).length = rs.length := by
  intro rs
  induction rs with
  | nil => intro ds; cases ds <;> rfl
  | cons r rs' ih =>
    intro ds
    cases ds with
    | nil => rfl
    | cons d ds' => simp [mergedRows, ih]

theorem mergedRows_getElem? : ∀ (rs : List Row) (ds : List (Option String)) (i : Nat),
    (mergedRows rs ds)[i]? =
      match rs[i]?, ds[i]? with
      | some r, some d => some (mergeQuote r (extract_data_from_docx d))
      | some r, none => some r
      | none, _ => none := by
  intro rs
  induction rs with
  | nil =>
    intro ds i
    cases ds <;> simp [mergedRows]
  | cons r rs' ih =>
    intro ds i
    cases ds with
    | nil =>
      cases h : (r :: rs')[i]? <;> simp [mergedRows, h]
    | cons d ds' =>
      cases i with
      | zero => simp [mergedRows]
      | succ i' => simp [mergedRows, ih ds' i']

theorem mergedRows_take : ∀ (rs : List Row) (ds : List (Option String)),
    mergedRows rs ds = mergedRows rs (ds.take rs.length) := by
  intro rs
  induction rs with
  | nil => intro ds; cases ds <;> rfl
  | cons r rs' ih =>
    intro ds
    cases ds with
    | nil => rfl
    | cons d ds' => simp [mergedRows, List.take_succ_cons, ih ds']

/-!
## Claims about the consolidation pipeline
-/

/-- C1 (counterexample): in a batch of three primary documents where the
second one's text cannot be obtained, the second document does not emit an
all-"N/A" row tagged with its identifier - it emits no row at all.  Documents
1 and 3 still emit their rows, so only the claimed recovery row is refuted,
not the batch continuation. -/
theorem c1_counterexample :
    ((runApp esLocale [("a.pdf", some "SEÑORES: ACME GIRO x"), ("b.pdf", none),
        ("c.pdf", some "SEÑORES: BETA GIRO x")] []).map (fun r => r.fileName) =
      ["a.pdf", "c.pdf"]) ∧
    (¬ ∃ r ∈ runApp esLocale [("a.pdf", some "SEÑORES: ACME GIRO x"), ("b.pdf", none),
        ("c.pdf", some "SEÑORES: BETA GIRO x")] [], r.fileName = "b.pdf") := by
  constructor
  · decide
  · decide

/-- C1 (amended): a primary document whose text cannot be obtained by the
upstream reader is recovered inside the reader with empty text, so its client
resolves to the not-found sentinel and the document is dropped with a warning
rather than emitted as an all-"N/A" row; processing of the remaining documents
continues exactly as if the unreadable document were absent. -/
theorem c1_unreadable_drop (loc : Locale) (pre post : List (String × Option String))
    (name : String) (docs : List (Option String)) :
    pdfAccepted loc (name, none) = false ∧
    runApp loc (pre ++ (name, none) :: post) docs = runApp loc (pre ++ post) docs := by
  have hacc : pdfAccepted loc (name, none) = false := rfl
  refine ⟨hacc, ?_⟩
  rw [runApp_eq, runApp_eq]
  have hfilter : acceptedPdfs loc (pre ++ (name, none) :: post) =
      acceptedPdfs loc (pre ++ post) := by
    unfold acceptedPdfs
    rw [List.filter_append, List.filter_append,
      List.filter_cons_of_neg (by simp [hacc])]
  rw [hfilter]

/-- C3: the i-th secondary document (in upload order) is merged
overwrite-union into the i-th registered primary record, for i up to the
minimum of the two counts; secondary documents beyond the primary count are
ignored (the run equals the run on the truncated secondary list); and every
primary row with no secondary document attached keeps the explicit
"No DOCX adjunto" sentinel in both quotation fields. -/
theorem c3_positional_merge (loc : Locale) (pdfs : List (String × Option String))
    (docs : List (Option String)) :
    (runApp loc pdfs docs).length = (acceptedPdfs loc pdfs).length ∧
    (∀ (i : Nat) (r : Row),
      ((acceptedPdfs loc pdfs).map (registeredRow loc))[i]? = some r →
      ((∀ d, docs[i]? = some d → (runApp loc pdfs docs)[i]? =
          some (finalizeRow (mergeQuote r (extract_data_from_docx d)))) ∧
       (docs[i]? = none → (runApp loc pdfs docs)[i]? = some (finalizeRow r)) ∧
       r.quotationNumber = "No DOCX adjunto" ∧ r.quotationDate = "No DOCX adjunto")) ∧
    runApp loc pdfs docs = runApp loc pdfs (docs.take (acceptedPdfs loc pdfs).length) := by
  refine ⟨?_, ?_, ?_⟩
  · rw [runApp_eq]
    simp [mergedRows_length]
  · intro i r hr
    have hrow : ∃ p, (acceptedPdfs loc pdfs)[i]? = some p ∧ r = registeredRow loc p := by
      rw [List.getElem?_map] at hr
      cases hp : (acceptedPdfs loc pdfs)[i]? with
      | none => rw [hp] at hr; simp at hr
      | some p =>
        rw [hp] at hr
        simp only [Option.map_some', Option.some.injEq] at hr
        exact ⟨p, rfl, hr.symm⟩
    obtain ⟨p, hp, rfl⟩ := hrow
    refine ⟨?_, ?_, rfl, rfl⟩
    · intro d hd
      rw [runApp_eq, List.getElem?_map, mergedRows_getElem?, hr, hd]
      rfl
    · intro hd
      rw [runApp_eq, List.getElem?_map, mergedRows_getElem?, hr, hd]
      rfl
  · rw [runApp_eq, runApp_eq]
    have hlen : (acceptedPdfs loc pdfs).length =
        ((acceptedPdfs loc pdfs).map (registeredRow loc)).length := by simp
    rw [hlen, ← mergedRows_take]

/-- Witness instantiating C3 at one primary and one secondary document. -/
theorem c3_witness :
    (runApp esLocale [("a.pdf", some "SEÑORES: ACME GIRO x")]
        [some "COTIZACIÓN # CB12/A, 14/08/2025"])[0]? =
      some (finalizeRow (mergeQuote
        (registeredRow esLocale ("a.pdf", some "SEÑORES: ACME GIRO x"))
        (extract_data_from_docx (some "COTIZACIÓN # CB12/A, 14/08/2025")))) :=
  (((c3_positional_merge esLocale [("a.pdf", some "SEÑORES: ACME GIRO x")]
      [some "COTIZACIÓN # CB12/A, 14/08/2025"]).2.1 0
    (registeredRow esLocale ("a.pdf", some "SEÑORES: ACME GIRO x"))
    (by decide)).1 (some "COTIZACIÓN # CB12/A, 14/08/2025") (by decide))

/-- C8: every emitted row's CLIENT value is the extracted client name
truncated at its first underscore, even with no duplicate-key disambiguation:
the i-th emitted row displays the underscore-truncated client of the i-th
accepted primary document, whose registered record keeps the raw extracted
name (the numeric disambiguation suffix lives only in the merge key). -/
theorem c8_client_truncation (loc : Locale) (pdfs : List (String × Option String))
    (docs : List (Option String)) (i : Nat) (p : String × Option String)
    (hp : (acceptedPdfs loc pdfs)[i]? = some p) :
    ∃ row, (runApp loc pdfs docs)[i]? = some row ∧
      row.client = underscoreHead (extract_data_from_pdf loc p.2).client := by
  rw [runApp_eq, List.getElem?_map, mergedRows_getElem?, List.getElem?_map, hp]
  cases hd : docs[i]? with
  | some d =>
    exact ⟨finalizeRow (mergeQuote (registeredRow loc p) (extract_data_from_docx d)),
      by simp, rfl⟩
  | none =>
    exact ⟨finalizeRow (registeredRow loc p), by simp, rfl⟩

/-- Witness for C8: a client whose extracted name itself contains an
underscore is emitted truncated at that underscore even though no
disambiguation occurred. -/
theorem c8_witness :
    (∃ row, (runApp esLocale [("a.pdf", some "SEÑORES: ACME_CORP GIRO")] [])[0]? = some row ∧
      row.client = underscoreHead
        (extract_data_from_pdf esLocale (some "SEÑORES: ACME_CORP GIRO")).client) ∧
    (extract_data_from_pdf esLocale (some "SEÑORES: ACME_CORP GIRO")).client = "ACME_CORP" ∧
    underscoreHead "ACME_CORP" = "ACME" :=
  ⟨c8_client_truncation esLocale [("a.pdf", some "SEÑORES: ACME_CORP GIRO")] [] 0
    ("a.pdf", some "SEÑORES: ACME_CORP GIRO") (by decide), by decide, by decide⟩

/-- C10: every record extracted from a readable primary document carries the
empty string (not a captured value and not the not-found sentinel) in its
DOLLARS and EUROS fields, and row emission applies the numeric normalization
only to the PESOS column, leaving every other column unchanged apart from the
client truncation. -/
theorem c10_dollars_euros :
    (∀ (loc : Locale) (text : String),
      (extract_all loc text).dollars = "" ∧ (extract_all loc text).euros = "" ∧
      (extract_all loc text).dollars ≠ "No encontrado" ∧
      (extract_all loc text).euros ≠ "No encontrado") ∧
    (∀ r : Row, (finalizeRow r).pesos = clean_total r.pesos ∧
      (finalizeRow r).dollars = r.dollars ∧ (finalizeRow r).euros = r.euros ∧
      (finalizeRow r).fileName = r.fileName ∧ (finalizeRow r).date = r.date ∧
      (finalizeRow r).number = r.number ∧
      (finalizeRow r).quotationNumber = r.quotationNumber ∧
      (finalizeRow r).quotationDate = r.quotationDate ∧
      (finalizeRow r).description = r.description) := by
  refine ⟨fun loc text => ⟨rfl, rfl, ?_, ?_⟩,
    fun _ => ⟨rfl, rfl, rfl, rfl, rfl, rfl, rfl, rfl, rfl⟩⟩
  · show ("" : String) ≠ "No encontrado"
    decide
  · show ("" : String) ≠ "No encontrado"
    decide

/-!
## Claims about the field rule engine
-/

theorem tryFindList_hit (ci : Bool) (text : String) :
    ∀ (rules : List Rule) (i : Nat) (rule : Rule),
    rules[i]? = some rule →
    reSearch ci (ruleRegex rule) text ≠ none →
    (∀ (j : Nat) (rj : Rule), j < i → rules[j]? = some rj →
      reSearch ci (ruleRegex rj) text = none) →
    tryFindList ci text rules = hitResult ci text rule := by
  intro rules
  induction rules with
  | nil =>
    intro i rule h
    simp at h
  | cons r0 rest ih =>
    intro i rule h hfire hprev
    cases i with
    | zero =>
      have h0 : rule = r0 := by
        simp only [List.getElem?_cons_zero, Option.some.injEq] at h
        exact h.symm
      subst h0
      unfold tryFindList hitResult
      cases hs : reSearch ci (ruleRegex rule) text with
      | none => exact absurd hs hfire
      | some mi => rfl
    | succ i' =>
      have h0 : reSearch ci (ruleRegex r0) text = none := hprev 0 r0 (by omega) (by simp)
      unfold tryFindList
      rw [h0]
      exact ih i' rule (by simpa using h) hfire
        (fun j rj hj hrj => hprev (j + 1) rj (by omega) (by simpa using hrj))

theorem tryFindList_none (ci : Bool) (text : String) :
    ∀ (rules : List Rule), (∀ rule ∈ rules, reSearch ci (ruleRegex rule) text = none) →
    tryFindList ci text rules = ("No encontrado", none, none) := by
  intro rules
  induction rules with
  | nil => intro _; rfl
  | cons r0 rest ih =>
    intro h
    unfold tryFindList
    rw [h r0 (by simp)]
    exact ih (fun rule hr => h rule (by simp [hr]))

/-- C4: for every field and input text, the engine returns the result of the
first configured pattern (in the field's ordered rule list) whose search hits,
ignoring all later patterns; and when no configured pattern matches, the field
resolves to the "No encontrado" sentinel (with no match and no rule), without
raising - the engine is a total function. -/
theorem c4_first_match_wins :
    (∀ (field text : String) (i : Nat) (rule : Rule),
      (rulesFor field)[i]? = some rule →
      reSearch (ciFor field) (ruleRegex rule) text ≠ none →
      (∀ (j : Nat) (rj : Rule), j < i → (rulesFor field)[j]? = some rj →
        reSearch (ciFor field) (ruleRegex rj) text = none) →
      try_find text field = hitResult (ciFor field) text rule) ∧
    (∀ (field text : String),
      (∀ rule ∈ rulesFor field, reSearch (ciFor field) (ruleRegex rule) text = none) →
      try_find text field = ("No encontrado", none, none)) :=
  ⟨fun _ text i rule h1 h2 h3 => tryFindList_hit _ text _ i rule h1 h2 h3,
   fun _ text h => tryFindList_none _ text _ h⟩

/-- Witness for C4: on a text matched by both the first and the second NUMBER
pattern, the engine returns the first pattern's capture ("7", not the second
pattern's "5"); and a text matching no NUMBER pattern yields the sentinel. -/
theorem c4_witness :
    reSearch (ciFor "NUMBER") (ruleRegex (Rule.bare reNumber1)) "N° 5 N° : 7" ≠ none ∧
    reSearch (ciFor "NUMBER") (ruleRegex (Rule.bare reNumber2)) "N° 5 N° : 7" ≠ none ∧
    try_find "N° 5 N° : 7" "NUMBER" = hitResult (ciFor "NUMBER") "N° 5 N° : 7"
      (Rule.bare reNumber1) ∧
    (hitResult (ciFor "NUMBER") "N° 5 N° : 7" (Rule.bare reNumber1)).1 = "7" ∧
    try_find "sin numero" "NUMBER" = ("No encontrado", none, none) :=
  ⟨by decide, by decide,
   c4_first_match_wins.1 "NUMBER" "N° 5 N° : 7" 0 (Rule.bare reNumber1) (by decide) (by decide)
     (fun j rj hj _ => absurd hj (Nat.not_lt_zero j)),
   by decide,
   c4_first_match_wins.2 "NUMBER" "sin numero" (by decide)⟩

/-- C9: the engine's case flag is IGNORECASE for every field other than
DESCRIPTION and case-sensitive for DESCRIPTION; behaviourally, the NUMBER
pattern matches a lowercased text while a DESCRIPTION keyword label does not,
and the client search is case-insensitive as well. -/
theorem c9_case_sensitivity :
    (∀ field : String, field ≠ "DESCRIPTION" → ciFor field = true) ∧
    ciFor "DESCRIPTION" = false ∧
    (try_find "n° : 7" "NUMBER").1 = "7" ∧
    (try_find "N° : 7" "NUMBER").1 = "7" ∧
    (try_find "boleta electronica" "DESCRIPTION").1 = "No encontrado" ∧
    (try_find "BOLETA ELECTRONICA" "DESCRIPTION").1 = "BOLETA ELECTRONICA" ∧
    find_client_in_text "señores: acme giro" = "acme" := by
  refine ⟨?_, by decide, by decide, by decide, by decide, by decide, by decide⟩
  intro field h
  simp [ciFor, h]

/-- Witness for C9 at a concrete non-DESCRIPTION field. -/
theorem c9_witness : ciFor "NUMBER" = true :=
  c9_case_sensitivity.1 "NUMBER" (by decide)

/-!
## Claims about the amount normalizer
-/

/-- C5: the Amount Normalizer removes every dot, turns the comma into a dot
and parses; the three specified round-trips hold (with the parsed rationals
equal to 1000, 7725844 and 20586.5); any input whose transformed form fails
the float parse - including the sentinel strings - is returned unchanged; and
the function is total, so it never raises to its caller. -/
theorem c5_amount_normalizer :
    clean_total "1000" = .inr (.finite (Rat.divInt 1000 1)) ∧
    clean_total "7.725.844" = .inr (.finite (Rat.divInt 7725844 1)) ∧
    clean_total "20.586,50" = .inr (.finite (Rat.divInt 41173 2)) ∧
    (Rat.divInt 1000 1 : ℚ) = 1000 ∧
    (Rat.divInt 7725844 1 : ℚ) = 7725844 ∧
    (Rat.divInt 41173 2 : ℚ) = 41173 / 2 ∧
    (∀ x : String, pyFloat (amountTransform x) = none → clean_total x = .inl x) ∧
    (∀ x : String, (x = "No encontrado" ∨ x = "N/A" ∨ x = "Documento Genérico (Default)" ∨
      x = "No DOCX adjunto") → clean_total x = .inl x) := by
  refine ⟨by decide, by decide, by decide, ?_, ?_, ?_, ?_, ?_⟩
  · rw [Rat.divInt_eq_div]; norm_num
  · rw [Rat.divInt_eq_div]; norm_num
  · rw [Rat.divInt_eq_div]; norm_num
  · intro x h
    unfold clean_total
    split_ifs with hs
    · rfl
    · rw [h]
  · intro x h
    unfold clean_total
    rw [if_pos h]

/-- Witness for C5's conditional parts: a non-numeric string and a sentinel
both pass through unchanged. -/
theorem c5_witness :
    pyFloat (amountTransform "abc") = none ∧
    clean_total "abc" = .inl "abc" ∧
    clean_total "N/A" = .inl "N/A" :=
  ⟨by decide,
   c5_amount_normalizer.2.2.2.2.2.2.1 "abc" (by decide),
   c5_amount_normalizer.2.2.2.2.2.2.2 "N/A" (by decide)⟩

/-!
## Claims about the date normalizer
-/

/-- C7: the Date Normalizer emits the canonical DD-MM-YY form: the short form
zero-pads day and month and expands a two-digit year with the "20" prefix
("10-2-20" becomes "10-02-20", under every locale since the short path never
consults month names), the long form maps "14 de Agosto del 2025" to
"14-08-25" (shown under the Spanish and the C locale), and an invalid
calendar day such as 32 fails the parse under every locale, producing the
long-format error sentinel, which is distinguishable from the "No encontrado"
sentinel. -/
theorem c7_date_canonical_form :
    (∀ loc : Locale, parse_date loc "10" "2" "20" "DD_MM_YY" = "10-02-20") ∧
    parse_date esLocale "14" "Agosto" "2025" "LONG_FORMAT" = "14-08-25" ∧
    parse_date cLocale "14" "Agosto" "2025" "LONG_FORMAT" = "14-08-25" ∧
    (∀ loc : Locale, parse_date loc "32" "Enero" "2020" "LONG_FORMAT" =
      "Error de Formato (Largo Fallido)") ∧
    ("Error de Formato (Largo Fallido)" ≠ "No encontrado" ∧
     "Error de Formato (Corto Fallido)" ≠ "No encontrado") := by
  refine ⟨fun loc => rfl, by decide, by decide, ?_, by decide, by decide⟩
  intro loc
  have hd : parsePctDay "32" = none := by decide
  unfold parse_date
  rw [if_pos rfl]
  unfold strptimeLong
  rw [hd]
  rfl

/-- C2 (counterexample): the Date Normalizer's long-form result depends on the
host locale: "14 de Agosto de 2025" parses under the Spanish locale but
produces the error sentinel under a French locale (where neither the Spanish
name nor its English translation resolves), diverging from the locale-free
behaviour the specification describes; and a locale that resolves the
untranslated name is consulted before the translation table. -/
theorem c2_counterexample :
    parse_date esLocale "14" "Agosto" "2025" "LONG_FORMAT" = "14-08-25" ∧
    parse_date frLocale "14" "Agosto" "2025" "LONG_FORMAT" =
      "Error de Formato (Largo Fallido)" ∧
    parse_date esLocale "14" "Agosto" "2025" "LONG_FORMAT" ≠
      parse_date frLocale "14" "Agosto" "2025" "LONG_FORMAT" ∧
    parseDateLongPerSpec "14" "Agosto" "2025" = "14-08-25" ∧
    parseDateLongPerSpec "14" "Agosto" "2025" ≠
      parse_date frLocale "14" "Agosto" "2025" "LONG_FORMAT" ∧
    parse_date ⟨[("agosto", 3)]⟩ "14" "Agosto" "2025" "LONG_FORMAT" = "14-03-25" :=
  ⟨by decide, by decide, by decide, by decide, by decide, by decide⟩

/-- C2 (amended): the long-form primary strategy parses the untranslated
Spanish month name through the host locale's month table; only when that
fails does it translate the name through the fixed 12-entry table and parse
again, still through the host locale; consequently the outcome can depend on
the host locale settings (the Spanish and French locales give different
results on the same input). -/
theorem c2_locale_order :
    (∀ (loc : Locale) (d m y : String) (dt : Date),
      strptimeLong loc d m y = some dt →
      parse_date loc d m y "LONG_FORMAT" = strftimeDdMmYy dt) ∧
    (∀ (loc : Locale) (d m y : String),
      strptimeLong loc d m y = none →
      parse_date loc d m y "LONG_FORMAT" =
        (match strptimeLong loc d ((MONTH_MAPPING.lookup (strLower m)).getD m) y with
         | some dt => strftimeDdMmYy dt
         | none => "Error de Formato (Largo Fallido)")) ∧
    parse_date esLocale "14" "Agosto" "2025" "LONG_FORMAT" ≠
      parse_date frLocale "14" "Agosto" "2025" "LONG_FORMAT" := by
  refine ⟨?_, ?_, by decide⟩
  · intro loc d m y dt h
    unfold parse_date
    rw [if_pos rfl, h]
  · intro loc d m y h
    unfold parse_date
    rw [if_pos rfl, h]

/-- Witness for the amended C2 theorem at concrete locales and inputs. -/
theorem c2_locale_order_witness :
    strptimeLong esLocale "14" "Agosto" "2025" = some ⟨2025, 8, 14⟩ ∧
    parse_date esLocale "14" "Agosto" "2025" "LONG_FORMAT" = strftimeDdMmYy ⟨2025, 8, 14⟩ ∧
    strptimeLong frLocale "14" "Agosto" "2025" = none ∧
    parse_date frLocale "14" "Agosto" "2025" "LONG_FORMAT" =
      (match strptimeLong frLocale "14"
          ((MONTH_MAPPING.lookup (strLower "Agosto")).getD "Agosto") "2025" with
       | some dt => strftimeDdMmYy dt
       | none => "Error de Formato (Largo Fallido)") :=
  ⟨by decide,
   c2_locale_order.1 esLocale "14" "Agosto" "2025" ⟨2025, 8, 14⟩ (by decide),
   by decide,
   c2_locale_order.2.1 frLocale "14" "Agosto" "2025" (by decide)⟩

end AngelaApp
